import Mathlib

/-!
Verification development for the profile package of the
PhilipRasmussen/minecraft Go repository.

The Go source (src/profile/load.go and friends) is shallowly embedded below:

* Decoded JSON documents (the result of Go's encoding/json decoding into
  interface values) are modelled by the inductive type Json.  Go numbers
  decode to float64; every numeric field used by this code is an integer
  timestamp, so numbers are modelled as Int and the int64 conversion in
  buildHistory is the identity.
* Go type assertions such as v.(string) panic on mismatch; each embedded
  function that can panic returns an Option, with none modelling the panic
  that the callers recover from and turn into a parse error.
* The transport collaborator (internal.FetchJSON / internal.ExchangeJSON)
  is external to the embedded core; its outcome is passed to each load
  function as an explicit argument of type Except Err Json.
* Each public load function returns the pair (Option Profile, Option Err),
  mirroring the Go multiple return values (p, err); none stands for Go nil.
-/

/-- Decoded JSON documents as produced by Go's encoding/json package. -/
inductive Json where
  | null : Json
  | str (s : String) : Json
  | num (v : Int) : Json
  | bool (b : Bool) : Json
  | arr (elems : List Json) : Json
  | obj (fields : List (String × Json)) : Json

/-- Go type assertion j.(string): some on a string, panic (none) otherwise. -/
def Json.asString : Json → Option String
  | .str s => some s
  | _ => none

/-- Go type assertion j.(float64) followed by int64 conversion. -/
def Json.asNum : Json → Option Int
  | .num v => some v
  | _ => none

/-- Go type assertion j.(bool). -/
def Json.asBool : Json → Option Bool
  | .bool b => some b
  | _ => none

/-- Go type assertion j.([]interface value). -/
def Json.asArr : Json → Option (List Json)
  | .arr es => some es
  | _ => none

/-- Go type assertion j.(map from string to interface value). -/
def Json.asObj : Json → Option (List (String × Json))
  | .obj fs => some fs
  | _ => none

/-- Go map indexing m[k] together with its presence bit: m[k] with ok. -/
def Json.lookup : List (String × Json) → String → Option Json
  | [], _ => none
  | (k', v) :: rest, k => if k' = k then some v else Json.lookup rest k

/-- Go time.Time values produced by msToTime, kept as (seconds, nanoseconds). -/
structure MTime where
  sec : Int
  nsec : Int
deriving DecidableEq, Repr

/-- Direct translation of msToTime from src/profile/load.go.  Go integer
division truncates toward zero, which is Int.tdiv in Lean. -/
def msToTime (ms : Int) : MTime :=
  let s := Int.tdiv ms 1000
  { sec := s, nsec := (ms - s * 1000) * 1000000 }

/-- The PastName struct: a former username together with the instant it was
replaced.  Modelled from the spec: the struct declaration itself is not under
src/ (only load.go, which fills it, is); per the spec a PastName is a name
string plus an optional valid-until instant.  none models the Go zero value
of the Until field (never assigned). -/
structure PastName where
  Name : String := ""
  Until : Option MTime := none
deriving DecidableEq, Repr

/-- The two body model variants.  Modelled from the spec: the Model type
declaration is not under src/; the spec describes an enumeration of two
variants with no further structure. -/
inductive Model where
  | Steve : Model
  | Alex : Model
deriving DecidableEq, Repr

/-- Skin/cape/model data of a profile.  Modelled from the spec: the
Properties struct declaration is not under src/.  Optional fields start out
unset (none) and are assigned by populateTextures, mirroring the Go
assignments in load.go. -/
structure Properties where
  SkinURL : Option String := none
  CapeURL : Option String := none
  Model : Option Model := none
deriving DecidableEq, Repr

/-- Error taxonomy of the profile package (errors.go and the internal
package).  failedRequest carries the status code and service error code of
internal.ErrFailedRequest; that type is modelled from the spec (transport
failures carry a status and an optional service error code, the empty string
standing for an absent code).  parseFailure models the url.Error parse
errors produced on recovered panics, parseWrap the url.Error wrapping of a
property-construction error, and passthrough an arbitrary other transport
error returned unchanged. -/
inductive Err where
  | noSuchProfile : Err
  | tooManyRequests : Err
  | maxSizeExceeded (size : Nat) : Err
  | failedRequest (statusCode : Nat) (errorCode : String) : Err
  | parseFailure : Err
  | parseWrap (inner : Err) : Err
  | passthrough (tag : Nat) : Err
deriving DecidableEq, Repr

/-- The Profile struct of the version of the package embedded here
(load.go): identifier, current name, optional name history and optional
properties.  none for NameHistory models a Go nil slice (history unknown),
some [] the defined empty history emptyHist. -/
structure Profile where
  ID : String
  Name : String
  NameHistory : Option (List PastName) := none
  Properties : Option Properties := none
deriving DecidableEq, Repr

/-- Direct translation of transformError from src/profile/load.go. -/
def transformError (src : Err) : Err :=
  match src with
  | .failedRequest statusCode errorCode =>
    if statusCode = 204 then .noSuchProfile
    else if errorCode = "TooManyRequestsException" then .tooManyRequests
    else .failedRequest statusCode errorCode
  | e => e

/-- Go field assignment hist[idx].Until = some t.  List.set is a no-op out
of bounds; in the Go source the index is always in bounds when reached. -/
def setUntil (hist : List PastName) (idx : Nat) (t : MTime) : List PastName :=
  hist.set idx { hist.getD idx {} with Until := some t }

/-- Go field assignment hist[idx].Name = nm. -/
def setName (hist : List PastName) (idx : Nat) (nm : String) : List PastName :=
  hist.set idx { hist.getD idx {} with Name := nm }

/-- The loop of buildHistory from src/profile/load.go, with loop variables i
and h made explicit.  h is an Int because it reaches -1 on the final
iteration of a single-event input.  none models a recovered panic. -/
def buildHistoryLoop : List Json → Nat → Int → List PastName →
    Option (String × List PastName)
  | [], _, _, _ => none
  | v :: rest, i, h, hist =>
    match v.asObj with
    | none => none
    | some m =>
      let step : Option (List PastName) :=
        match Json.lookup m "changedToAt" with
        | some w =>
          if i > 0 then
            match w.asNum with
            | none => none
            | some ms => some (setUntil hist (h + 1).toNat (msToTime ms))
          else some hist
        | none => some hist
      match step with
      | none => none
      | some hist =>
        if i = hist.length then
          match (Json.lookup m "name").bind Json.asString with
          | none => none
          | some name => some (name, hist)
        else
          match (Json.lookup m "name").bind Json.asString with
          | none => none
          | some nm =>
            buildHistoryLoop rest (i + 1) (h - 1) (setName hist h.toNat nm)

/-- Direct translation of buildHistory from src/profile/load.go.  The outer
Option is a recovered panic; the inner Option (List PastName) distinguishes
the Go nil slice returned for an empty input (none) from an allocated
history slice (some). -/
def buildHistory (arr : List Json) : Option (String × Option (List PastName)) :=
  if arr.length = 0 then
    some ("", none)
  else
    (buildHistoryLoop arr 0 ((arr.length : Int) - 2)
        (List.replicate (arr.length - 1) {})).map
      fun r => (r.1, some r.2)

/-- Direct translation of isEven from src/profile/load.go.  The argument is
the byte (character code) extracted from the identifier string; the default
branch of the Go switch panics, modelled by none. -/
def isEven (c : Nat) : Option Bool :=
  if 48 ≤ c ∧ c ≤ 57 then some (c % 2 = 0)
  else if 97 ≤ c ∧ c ≤ 102 then some (c % 2 = 1)
  else none

/-- Go string byte indexing uuid[i].  The identifiers handled by
defaultModel are ASCII, for which the byte at index i is the code of the
i-th character; an out-of-range index panics in Go, modelled by none. -/
def strByte (s : String) (i : Nat) : Option Nat :=
  (s.data.get? i).map Char.toNat

/-- Direct translation of defaultModel from src/profile/load.go; none
models the panic on a malformed identifier (too short or non-hex digit at
an inspected position). -/
def defaultModel (uuid : String) : Option Model := do
  let b7 ← strByte uuid 7
  let e7 ← isEven b7
  let b23 ← strByte uuid (16 + 7)
  let e23 ← isEven b23
  let b15 ← strByte uuid 15
  let e15 ← isEven b15
  let b31 ← strByte uuid (16 + 15)
  let e31 ← isEven b31
  pure (if (e7 ≠ e23) ≠ (e15 ≠ e31) then Model.Alex else Model.Steve)

/-- Direct translation of buildProfile from src/profile/load.go.  none is a
recovered panic; some (Except.error e) the Go return (nil, e); and
some (Except.ok p) the Go return (p, nil).  The demo check runs before the
id and name assertions, exactly as in the source. -/
def buildProfile (m : List (String × Json)) (demoErr : Err) :
    Option (Except Err Profile) :=
  match Json.lookup m "demo" with
  | some t =>
    match t.asBool with
    | none => none
    | some b =>
      if b then some (.error demoErr)
      else buildProfileRest m
  | none => buildProfileRest m
where
  buildProfileRest (m : List (String × Json)) : Option (Except Err Profile) :=
    match (Json.lookup m "id").bind Json.asString with
    | none => none
    | some id =>
      match (Json.lookup m "name").bind Json.asString with
      | none => none
      | some name =>
        let p : Profile := { ID := id, Name := name }
        match Json.lookup m "legacy" with
        | some t =>
          match t.asBool with
          | none => none
          | some b =>
            if b then some (.ok { p with NameHistory := some [] })
            else some (.ok p)
        | none => some (.ok p)

/-- The SKIN handling of populateTextures from src/profile/load.go: sets
the skin URL and the model on the decoded textures object ts, consulting
the profile document jm for the embedded profile identifier when no SKIN
entry is present. -/
def skinStep (ts jm : List (String × Json)) (props : Properties) :
    Option Properties :=
  match Json.lookup ts "SKIN" with
  | some s => do
    let skin ← s.asObj
    let url ← (Json.lookup skin "url").bind Json.asString
    let props := { props with SkinURL := some url, Model := some Model.Steve }
    match Json.lookup skin "metadata" with
    | some s2 => do
      let skinMeta ← s2.asObj
      match Json.lookup skinMeta "model" with
      | some mv => do
        let ms ← mv.asString
        pure (if ms = "slim" then { props with Model := some Model.Alex }
              else props)
      | none => pure props
    | none => pure props
  | none => do
    let pid ← (Json.lookup jm "profileId").bind Json.asString
    let mdl ← defaultModel pid
    pure { props with Model := some mdl }

/-- The trailing CAPE handling of populateTextures. -/
def capeStep (ts : List (String × Json)) (props : Properties) :
    Option Properties :=
  match Json.lookup ts "CAPE" with
  | some c => do
    let cape ← c.asObj
    let url ← (Json.lookup cape "url").bind Json.asString
    pure { props with CapeURL := some url }
  | none => pure props

/-- The body of populateTextures from src/profile/load.go after the base64
and JSON decoding stages, acting on the decoded document j.  none models a
recovered panic (missing or ill-typed field, or a defaultModel panic). -/
def populateTexturesDoc (j : Json) (props : Properties) : Option Properties := do
  let jm ← j.asObj
  let ts ← (Json.lookup jm "textures").bind Json.asObj
  let props ← skinStep ts jm props
  capeStep ts props

/-- populateTextures from src/profile/load.go.  The base64 decoding and
JSON parsing of the encoded value are performed by external library code;
they are modelled by the explicit decode argument, whose error outcome is
returned as an error (not a panic), exactly as the two early returns of the
Go function. -/
def populateTextures (decode : String → Except Err Json) (enc : String)
    (props : Properties) : Option (Except Err Properties) :=
  match decode enc with
  | .error e => some (.error e)
  | .ok j =>
    match populateTexturesDoc j props with
    | none => none
    | some props => some (.ok props)

/-- The loop of buildProperties from src/profile/load.go.  The
propertyPopulators map contains exactly one entry, for the property name
"textures". -/
def buildPropertiesLoop (decode : String → Except Err Json) :
    List Json → Properties → Option (Except Err Properties)
  | [], ps => some (.ok ps)
  | p :: rest, ps =>
    match p.asObj with
    | none => none
    | some prop =>
      match (Json.lookup prop "name").bind Json.asString with
      | none => none
      | some name =>
        match (Json.lookup prop "value").bind Json.asString with
        | none => none
        | some value =>
          if name = "textures" then
            match populateTextures decode value ps with
            | none => none
            | some (.error e) => some (.error e)
            | some (.ok ps) => buildPropertiesLoop decode rest ps
          else
            buildPropertiesLoop decode rest ps

/-- Direct translation of buildProperties from src/profile/load.go. -/
def buildProperties (decode : String → Except Err Json) (props : List Json) :
    Option (Except Err Properties) :=
  buildPropertiesLoop decode props {}

/-- Direct translation of loadByName from src/profile/load.go.  The fetch
argument is the outcome of the transport call internal.FetchJSON; the
deferred recover turning a panic into a url parse error is modelled by the
none branches. -/
def loadByName (fetchRes : Except Err Json) : Option Profile × Option Err :=
  match fetchRes with
  | .error e => (none, some (transformError e))
  | .ok j =>
    match j.asObj with
    | none => (none, some .parseFailure)
    | some m =>
      match buildProfile m .noSuchProfile with
      | none => (none, some .parseFailure)
      | some (.error e) => (none, some e)
      | some (.ok p) => (some p, none)

/-- Direct translation of Load from src/profile/load.go. -/
def Load (username : String) (fetchRes : Except Err Json) :
    Option Profile × Option Err :=
  if username = "" then (none, some .noSuchProfile)
  else loadByName fetchRes

/-- Direct translation of LoadAtTime from src/profile/load.go.  The instant
only enters the endpoint URL, which is not part of the embedded state. -/
def LoadAtTime (username : String) (_tm : Int) (fetchRes : Except Err Json) :
    Option Profile × Option Err :=
  if username = "" then (none, some .noSuchProfile)
  else loadByName fetchRes

/-- Direct translation of LoadWithNameHistory from src/profile/load.go. -/
def LoadWithNameHistory (id : String) (fetchRes : Except Err Json) :
    Option Profile × Option Err :=
  if id = "" then (none, some .noSuchProfile)
  else
    match fetchRes with
    | .error e => (none, some (transformError e))
    | .ok j =>
      match j.asArr with
      | none => (none, some .parseFailure)
      | some arr =>
        match buildHistory arr with
        | none => (none, some .parseFailure)
        | some nh => (some { ID := id, Name := nh.1, NameHistory := nh.2 }, none)

/-- Direct translation of LoadByID from src/profile/load.go. -/
def LoadByID (id : String) (fetchRes : Except Err Json) :
    Option Profile × Option Err :=
  LoadWithNameHistory id fetchRes

/-- Direct translation of LoadWithProperties from src/profile/load.go.  On
a property-construction error the Go code overwrites the result with
(nil, url parse error wrapping the inner error). -/
def LoadWithProperties (id : String) (decode : String → Except Err Json)
    (fetchRes : Except Err Json) : Option Profile × Option Err :=
  if id = "" then (none, some .noSuchProfile)
  else
    match fetchRes with
    | .error e => (none, some (transformError e))
    | .ok j =>
      match j.asObj with
      | none => (none, some .parseFailure)
      | some m =>
        match buildProfile m .noSuchProfile with
        | none => (none, some .parseFailure)
        | some (.error e) => (none, some e)
        | some (.ok p) =>
          match (Json.lookup m "properties").bind Json.asArr with
          | none => (none, some .parseFailure)
          | some props =>
            match buildProperties decode props with
            | none => (none, some .parseFailure)
            | some (.error e) => (none, some (.parseWrap e))
            | some (.ok ps) => (some { p with Properties := some ps }, none)

/-- The maximum number of profiles requestable at once (load.go). -/
def LoadManyMaxSize : Nat := 100

/-- The result-building loop of LoadMany from src/profile/load.go.  Entries
whose buildProfile outcome is the demo error ErrNoSuchProfile are skipped;
none models a recovered panic, which nils the whole result. -/
def loadManyLoop : List Json → List Profile → Option (Except Err (List Profile))
  | [], ps => some (.ok ps)
  | p :: rest, ps =>
    match p.asObj with
    | none => none
    | some m =>
      match buildProfile m .noSuchProfile with
      | none => none
      | some (.error e) =>
        match e with
        | .noSuchProfile => loadManyLoop rest ps
        | _ => some (.error e)
      | some (.ok pr) => loadManyLoop rest (ps ++ [pr])

/-- Direct translation of LoadMany from src/profile/load.go.  The exchange
argument is the transport collaborator internal.ExchangeJSON, as a function
of the request payload; the fixed-size copy loop dropping empty usernames
amounts to a filter.  The pair (none, none) is the Go return of a nil slice
and a nil error, issued without any transport call. -/
def LoadMany (username : List String) (exchange : List String → Except Err Json) :
    Option (List Profile) × Option Err :=
  if username.length > LoadManyMaxSize then
    (none, some (.maxSizeExceeded username.length))
  else
    let users := username.filter (fun u => u ≠ "")
    if users.length = 0 then (none, none)
    else
      match exchange users with
      | .error e => (none, some (transformError e))
      | .ok j =>
        match j.asArr with
        | none => (none, some .parseFailure)
        | some entries =>
          match loadManyLoop entries [] with
          | none => (none, some .parseFailure)
          | some (.error e) => (none, some e)
          | some (.ok ps) => (some ps, none)

/-- The request payload LoadMany hands to the transport collaborator, read
off the same source: none when no transport call is issued (size cap
exceeded, or no nonempty usernames), some payload otherwise. -/
def loadManyRequest (username : List String) : Option (List String) :=
  if username.length > LoadManyMaxSize then none
  else
    let users := username.filter (fun u => u ≠ "")
    if users.length = 0 then none else some users

/-!
Abstract name-change events.  An event of the remote service's history
endpoint is an object with a "name" field and an optional "changedToAt"
field; Event.toJson builds exactly that document shape, so that statements
over arbitrary well-formed event lists can be made.
-/

/-- A name-change event: the name and the optional instant (in Unix
milliseconds) at which it became current. -/
structure Event where
  name : String := ""
  changedToAt : Option Int := none
deriving DecidableEq, Repr, Inhabited

/-- The JSON fields of an event document. -/
def Event.fields (e : Event) : List (String × Json) :=
  ("name", Json.str e.name) ::
    (match e.changedToAt with
     | some v => [("changedToAt", Json.num v)]
     | none => [])

/-- The JSON document of an event. -/
def Event.toJson (e : Event) : Json :=
  Json.obj e.fields

@[simp]
theorem Event.asObj_toJson (e : Event) : (Event.toJson e).asObj = some e.fields :=
  rfl

@[simp]
theorem Event.lookup_name (e : Event) :
    Json.lookup e.fields "name" = some (Json.str e.name) := by
  cases h : e.changedToAt <;> simp [Event.fields, Json.lookup, h]

@[simp]
theorem Event.lookup_changedToAt (e : Event) :
    Json.lookup e.fields "changedToAt" = e.changedToAt.map Json.num := by
  cases h : e.changedToAt <;> simp [Event.fields, Json.lookup, h]

/-- The effect on an optional valid-until instant of processing an event
with optional changed-to value c: present values overwrite, absent values
leave the field alone. -/
def untilUpd (c : Option Int) (old : Option MTime) : Option MTime :=
  match c with
  | some v => some (msToTime v)
  | none => old

/-- The entry at index q of the history array after the buildHistory loop
has consumed the event suffix es (starting at loop index i ≥ 1 with
i + es.length = hist.length + 1), given its prior contents hist. -/
def entryAfter (es : List Event) (hist : List PastName) (q : Nat) : PastName :=
  { Name :=
      if q + 1 < es.length then (es.getD (es.length - 2 - q) default).name
      else (hist.getD q {}).Name,
    Until :=
      if q < es.length then
        untilUpd (es.getD (es.length - 1 - q) default).changedToAt
          (hist.getD q {}).Until
      else (hist.getD q {}).Until }

/-- The whole history array after the loop has consumed the suffix es. -/
def histAfter (es : List Event) (hist : List PastName) : List PastName :=
  (List.range hist.length).map (entryAfter es hist)

theorem length_setUntil (hist : List PastName) (idx : Nat) (t : MTime) :
    (setUntil hist idx t).length = hist.length := by
  simp [setUntil]

theorem length_setName (hist : List PastName) (idx : Nat) (nm : String) :
    (setName hist idx nm).length = hist.length := by
  simp [setName]

theorem getD_setUntil_eq (hist : List PastName) (idx : Nat) (t : MTime)
    (h : idx < hist.length) :
    (setUntil hist idx t).getD idx {} = { hist.getD idx {} with Until := some t } := by
  simp [setUntil, List.getD_eq_getElem?_getD, List.getElem?_set_self, h]

theorem getD_setUntil_ne (hist : List PastName) (idx q : Nat) (t : MTime)
    (h : q ≠ idx) :
    (setUntil hist idx t).getD q {} = hist.getD q {} := by
  simp [setUntil, List.getD_eq_getElem?_getD, List.getElem?_set_ne (Ne.symm h)]

theorem getD_setName_eq (hist : List PastName) (idx : Nat) (nm : String)
    (h : idx < hist.length) :
    (setName hist idx nm).getD idx {} = { hist.getD idx {} with Name := nm } := by
  simp [setName, List.getD_eq_getElem?_getD, List.getElem?_set_self, h]

theorem getD_setName_ne (hist : List PastName) (idx q : Nat) (nm : String)
    (h : q ≠ idx) :
    (setName hist idx nm).getD q {} = hist.getD q {} := by
  simp [setName, List.getD_eq_getElem?_getD, List.getElem?_set_ne (Ne.symm h)]

theorem length_histAfter (es : List Event) (hist : List PastName) :
    (histAfter es hist).length = hist.length := by
  simp [histAfter]

theorem getD_histAfter (es : List Event) (hist : List PastName) (q : Nat)
    (h : q < hist.length) :
    (histAfter es hist).getD q {} = entryAfter es hist q := by
  simp [histAfter, List.getD_eq_getElem?_getD, List.getElem?_map, h]

/-- The effect on the history array of the changed-to handling of one loop
iteration with index i > 0: a write of the converted changed-to instant at
position pos when the event carries one, no change otherwise. -/
def untilStep (e : Event) (hist : List PastName) (pos : Nat) : List PastName :=
  match e.changedToAt with
  | some v => setUntil hist pos (msToTime v)
  | none => hist

theorem getD_set_pn (l : List PastName) (i q : Nat) (a : PastName) :
    (l.set i a).getD q {} = if i = q ∧ i < l.length then a else l.getD q {} := by
  rw [List.getD_eq_getElem?_getD, List.getD_eq_getElem?_getD, List.getElem?_set]
  rcases eq_or_ne i q with rfl | h
  · rcases lt_or_ge i l.length with h2 | h2
    · simp [h2]
    · simp [Nat.not_lt.2 h2, List.getElem?_eq_none h2]
  · simp [h]

theorem length_untilStep (e : Event) (l : List PastName) (pos : Nat) :
    (untilStep e l pos).length = l.length := by
  cases hc : e.changedToAt <;> simp [untilStep, hc, setUntil]

theorem getD_untilStep_eq (e : Event) (l : List PastName) (pos : Nat)
    (hpos : pos < l.length) :
    (untilStep e l pos).getD pos {} =
      { l.getD pos {} with Until := untilUpd e.changedToAt ((l.getD pos {}).Until) } := by
  cases hc : e.changedToAt with
  | none => simp [untilStep, hc, untilUpd]
  | some v => simp [untilStep, hc, untilUpd, setUntil, getD_set_pn, hpos]

theorem getD_untilStep_ne (e : Event) (l : List PastName) (pos q : Nat)
    (h : q ≠ pos) :
    (untilStep e l pos).getD q {} = l.getD q {} := by
  cases hc : e.changedToAt with
  | none => simp [untilStep, hc]
  | some v =>
    have h2 : ¬(pos = q ∧ pos < l.length) := fun h3 => h h3.1.symm
    simp only [untilStep, hc, setUntil, getD_set_pn]
    simp [h2]

theorem getD_setName_Until (l : List PastName) (idx q : Nat) (nm : String) :
    ((setName l idx nm).getD q {}).Until = (l.getD q {}).Until := by
  simp only [setName, getD_set_pn]
  split
  · rename_i h; rw [h.1]
  · rfl

theorem getD_setName' (l : List PastName) (idx q : Nat) (nm : String) :
    (setName l idx nm).getD q {} =
      if idx = q ∧ idx < l.length then { l.getD q {} with Name := nm }
      else l.getD q {} := by
  simp only [setName, getD_set_pn]
  split
  · rename_i h; rw [h.1]
  · rfl

theorem pastName_ext (x y : PastName) (h1 : x.Name = y.Name)
    (h2 : x.Until = y.Until) : x = y := by
  cases x; cases y; simp_all

theorem list_pn_ext (l₁ l₂ : List PastName) (hlen : l₁.length = l₂.length)
    (h : ∀ q, q < l₁.length → l₁.getD q {} = l₂.getD q {}) : l₁ = l₂ := by
  apply List.ext_getElem hlen
  intro n h₁ h₂
  have h3 := h n h₁
  rwa [List.getD_eq_getElem?_getD, List.getD_eq_getElem?_getD,
    List.getElem?_eq_getElem h₁, List.getElem?_eq_getElem h₂,
    Option.getD_some, Option.getD_some] at h3

theorem buildHistoryLoop_cons (e : Event) (rest : List Json) (i : Nat) (h : Int)
    (hist : List PastName) (hi : 0 < i) :
    buildHistoryLoop (Event.toJson e :: rest) i h hist =
      if i = (untilStep e hist (h + 1).toNat).length then
        some (e.name, untilStep e hist (h + 1).toNat)
      else
        buildHistoryLoop rest (i + 1) (h - 1)
          (setName (untilStep e hist (h + 1).toNat) h.toNat e.name) := by
  cases hc : e.changedToAt <;>
    simp [buildHistoryLoop, untilStep, hc, hi, Json.asNum, Json.asString]

theorem histAfter_step (e : Event) (es' : List Event) (hist : List PastName)
    (i : Nat) (hne : es' ≠ []) (hi : 1 ≤ i) (hik : i + es'.length = hist.length) :
    histAfter es'
        (setName (untilStep e hist (hist.length - i)) (hist.length - 1 - i) e.name)
      = histAfter (e :: es') hist := by
  have hk : 1 ≤ es'.length := List.length_pos.2 hne
  have hlen2 :
      (setName (untilStep e hist (hist.length - i)) (hist.length - 1 - i)
        e.name).length = hist.length := by
    simp [setName, length_untilStep]
  apply list_pn_ext
  · simp [length_histAfter, hlen2]
  · intro q hq
    have hqL : q < hist.length := by rwa [length_histAfter, hlen2] at hq
    rw [getD_histAfter _ _ _ (by rw [hlen2]; exact hqL), getD_histAfter _ _ _ hqL]
    apply pastName_ext
    · simp only [entryAfter, List.length_cons]
      by_cases h1 : q + 1 < es'.length
      · rw [if_pos h1, if_pos (by omega),
          show es'.length + 1 - 2 - q = (es'.length - 2 - q) + 1 by omega,
          List.getD_cons_succ]
      · by_cases h2 : q + 1 = es'.length
        · rw [if_neg h1, if_pos (by omega),
            show es'.length + 1 - 2 - q = 0 by omega, List.getD_cons_zero,
            getD_setName',
            if_pos ⟨by omega, by rw [length_untilStep]; omega⟩]
        · rw [if_neg h1, if_neg (by omega), getD_setName',
            if_neg (by intro hcon; omega)]
          rcases eq_or_ne q (hist.length - i) with hq2 | hq2
          · rw [hq2, getD_untilStep_eq _ _ _ (by omega)]
          · rw [getD_untilStep_ne _ _ _ _ hq2]
    · simp only [entryAfter, List.length_cons]
      by_cases h1 : q < es'.length
      · rw [if_pos h1, if_pos (by omega),
          show es'.length + 1 - 1 - q = (es'.length - 1 - q) + 1 by omega,
          List.getD_cons_succ, getD_setName_Until,
          getD_untilStep_ne _ _ _ _ (by omega)]
      · by_cases h2 : q = es'.length
        · rw [if_neg h1, if_pos (by omega),
            show es'.length + 1 - 1 - q = 0 by omega, List.getD_cons_zero,
            getD_setName_Until,
            show q = hist.length - i by omega,
            getD_untilStep_eq _ _ _ (by omega)]
        · rw [if_neg h1, if_neg (by omega), getD_setName_Until,
            getD_untilStep_ne _ _ _ _ (by omega)]

theorem buildHistoryLoop_eq (es : List Event) :
    ∀ (i : Nat) (hist : List PastName), es ≠ [] → 1 ≤ i →
      i + es.length = hist.length + 1 →
      buildHistoryLoop (es.map Event.toJson) i ((hist.length : Int) - 1 - i) hist
        = some ((es.getLast?.getD default).name, histAfter es hist) := by
  induction es with
  | nil => intro i hist hne _ _; exact absurd rfl hne
  | cons e es' ih =>
    intro i hist _ hi hik
    rw [List.map_cons, buildHistoryLoop_cons e _ i _ hist hi,
      show ((hist.length : Int) - 1 - i + 1).toNat = hist.length - i by omega]
    cases es' with
    | nil =>
      have hieq : i = hist.length := by simp at hik; omega
      rw [if_pos (by rw [length_untilStep]; exact hieq)]
      have h0 : hist.length - i = 0 := by omega
      refine congrArg some (Prod.ext (by simp) ?_)
      rw [h0]
      apply list_pn_ext
      · simp [length_untilStep, length_histAfter]
      · intro q hq
        rw [length_untilStep] at hq
        rw [getD_histAfter _ _ _ hq]
        rcases Nat.eq_zero_or_pos q with rfl | hq0
        · rw [getD_untilStep_eq _ _ _ (by omega)]
          simp [entryAfter]
        · rw [getD_untilStep_ne _ _ _ _ (by omega)]
          simp only [entryAfter, List.length_singleton]
          rw [if_neg (by omega), if_neg (by omega)]
    | cons e2 es'' =>
      have hlt : i < hist.length := by
        simp only [List.length_cons] at hik; omega
      rw [if_neg (by rw [length_untilStep]; omega),
        show ((hist.length : Int) - 1 - i).toNat = hist.length - 1 - i by omega]
      have hlen2 :
          (setName (untilStep e hist (hist.length - i)) (hist.length - 1 - i)
            e.name).length = hist.length := by
        simp [setName, length_untilStep]
      have harg :
          (hist.length : Int) - 1 - i - 1 =
            ((setName (untilStep e hist (hist.length - i)) (hist.length - 1 - i)
              e.name).length : Int) - 1 - ((i + 1 : Nat) : Int) := by
        rw [hlen2]; push_cast; omega
      rw [harg, ih (i + 1) _ (by simp) (by omega)
        (by rw [hlen2]; simp only [List.length_cons] at hik ⊢; omega)]
      rw [histAfter_step e (e2 :: es'') hist i (by simp) hi
        (by simp only [List.length_cons] at hik ⊢; omega)]
      rw [List.getLast?_cons_cons]

/-- Wrapper of buildHistoryLoop_eq taking the h argument up to arithmetic. -/
theorem buildHistoryLoop_eq2 (es : List Event) (i : Nat) (h : Int)
    (hist : List PastName) (hne : es ≠ []) (hi : 1 ≤ i)
    (hik : i + es.length = hist.length + 1)
    (hh : h = (hist.length : Int) - 1 - i) :
    buildHistoryLoop (es.map Event.toJson) i h hist
      = some ((es.getLast?.getD default).name, histAfter es hist) := by
  subst hh; exact buildHistoryLoop_eq es i hist hne hi hik

theorem buildHistoryLoop_zero (e : Event) (rest : List Json) (h : Int)
    (hist : List PastName) (hnz : hist.length ≠ 0) :
    buildHistoryLoop (Event.toJson e :: rest) 0 h hist =
      buildHistoryLoop rest 1 (h - 1) (setName hist h.toNat e.name) := by
  have h0 : ¬(0 = hist.length) := fun hx => hnz hx.symm
  cases hc : e.changedToAt <;> simp [buildHistoryLoop, hc, Json.asString, h0]

/-- The reference description of the reconstructed history: entry q names
the event at index n - 2 - q and carries, as valid-until instant, the
changed-to instant of the event at index n - 1 - q (its successor). -/
def histSpec (es : List Event) : List PastName :=
  (List.range (es.length - 1)).map fun q =>
    { Name := (es.getD (es.length - 2 - q) default).name,
      Until := ((es.getD (es.length - 1 - q) default).changedToAt).map msToTime }

theorem length_histSpec (es : List Event) : (histSpec es).length = es.length - 1 := by
  simp [histSpec]

theorem getD_histSpec (es : List Event) (q : Nat) (h : q < es.length - 1) :
    (histSpec es).getD q {} =
      { Name := (es.getD (es.length - 2 - q) default).name,
        Until := ((es.getD (es.length - 1 - q) default).changedToAt).map msToTime } := by
  simp [histSpec, List.getD_eq_getElem?_getD, h]

theorem untilUpd_none (c : Option Int) : untilUpd c none = c.map msToTime := by
  cases c <;> rfl

theorem getD_replicate_pn (n q : Nat) :
    (List.replicate n ({} : PastName)).getD q {} = {} := by
  rw [List.getD_eq_getElem?_getD, List.getElem?_replicate]
  split <;> rfl

theorem histAfter_init (e : Event) (es' : List Event) (hne : es' ≠ []) :
    histAfter es'
        (setName (List.replicate es'.length ({} : PastName)) (es'.length - 1) e.name)
      = histSpec (e :: es') := by
  have hk : 1 ≤ es'.length := List.length_pos.2 hne
  have hlen2 :
      (setName (List.replicate es'.length ({} : PastName)) (es'.length - 1)
        e.name).length = es'.length := by
    simp [setName]
  apply list_pn_ext
  · simp [length_histAfter, hlen2, length_histSpec]
  · intro q hq
    rw [length_histAfter, hlen2] at hq
    rw [getD_histAfter _ _ _ (by rw [hlen2]; exact hq),
      getD_histSpec _ _ (by simp; omega)]
    apply pastName_ext
    · simp only [entryAfter, List.length_cons]
      by_cases h1 : q + 1 < es'.length
      · rw [if_pos h1,
          show es'.length + 1 - 2 - q = (es'.length - 2 - q) + 1 by omega,
          List.getD_cons_succ]
      · rw [if_neg h1, getD_setName',
          if_pos ⟨by omega, by simp; omega⟩,
          show es'.length + 1 - 2 - q = 0 by omega, List.getD_cons_zero]
    · simp only [entryAfter, List.length_cons]
      rw [if_pos hq, getD_setName_Until, getD_replicate_pn,
        show es'.length + 1 - 1 - q = (es'.length - 1 - q) + 1 by omega,
        List.getD_cons_succ]
      exact untilUpd_none _

/-- Full characterization of buildHistory on well-formed event documents:
the current name is the last event's name and the history is histSpec. -/
theorem buildHistory_eq (es : List Event) (hne : es ≠ []) :
    buildHistory (es.map Event.toJson) =
      some ((es.getLast?.getD default).name, some (histSpec es)) := by
  cases es with
  | nil => exact absurd rfl hne
  | cons e es' =>
    cases es' with
    | nil =>
      cases hc : e.changedToAt <;>
        simp [buildHistory, buildHistoryLoop, histSpec, hc, Json.asString]
    | cons e2 es'' =>
      rw [buildHistory, if_neg (by simp)]
      rw [List.map_cons,
        buildHistoryLoop_zero e _ _ _ (by simp),
        buildHistoryLoop_eq2 (e2 :: es'') 1 _ _ (by simp) (le_refl 1)
          (by simp [setName]; omega)
          (by simp [setName, List.length_set]; omega)]
      rw [List.getLast?_cons_cons]
      have harg2 :
          setName (List.replicate ((Event.toJson e :: (e2 :: es'').map Event.toJson).length - 1)
              ({} : PastName))
              ((((Event.toJson e :: (e2 :: es'').map Event.toJson).length : Int) - 2)).toNat
              e.name
            = setName (List.replicate (e2 :: es'').length ({} : PastName))
              ((e2 :: es'').length - 1) e.name := by
        simp only [List.length_cons, List.length_map]
        congr 1
        omega
      rw [harg2, histAfter_init e (e2 :: es'') (by simp)]
      simp

theorem getLastD_eq_getD (es : List Event) :
    es.getLast?.getD default = es.getD (es.length - 1) default := by
  rw [List.getLast?_eq_getElem?, List.getD_eq_getElem?_getD]

/-- C1: for every input event list of length n ≥ 1, buildHistory returns
the name of the last event as the current name together with a history of
exactly n - 1 entries ordered most-recent-first: history element q names
the input event at index n - 2 - q, so element 0 corresponds to the
second-to-last input event and the last history element to the first input
event; for an empty input list the current name is the empty string and
the history is empty (the Go nil slice, modelled by none). -/
theorem history_reconstruction_C1 :
    buildHistory [] = some ("", none) ∧
    ∀ es : List Event, 1 ≤ es.length →
      ∃ hist : List PastName,
        buildHistory (es.map Event.toJson)
          = some ((es.getD (es.length - 1) default).name, some hist) ∧
        hist.length = es.length - 1 ∧
        ∀ q, q < es.length - 1 →
          (hist.getD q {}).Name = (es.getD (es.length - 2 - q) default).name := by
  refine ⟨rfl, ?_⟩
  intro es h1
  have hne : es ≠ [] := by
    intro h; subst h; simp at h1
  refine ⟨histSpec es, ?_, length_histSpec es, ?_⟩
  · rw [buildHistory_eq es hne, getLastD_eq_getD]
  · intro q hq
    rw [getD_histSpec es q hq]

/-- Concrete instance of history_reconstruction_C1 at a three-event list. -/
theorem history_reconstruction_C1_witness :
    (1 : Nat) ≤ ([{ name := "A" }, { name := "B", changedToAt := some 1000 },
        { name := "C", changedToAt := some 2000 }] : List Event).length ∧
    ∃ hist : List PastName,
      buildHistory (([{ name := "A" }, { name := "B", changedToAt := some 1000 },
          { name := "C", changedToAt := some 2000 }] : List Event).map Event.toJson)
        = some ((([{ name := "A" }, { name := "B", changedToAt := some 1000 },
            { name := "C", changedToAt := some 2000 }] : List Event).getD
              (([{ name := "A" }, { name := "B", changedToAt := some 1000 },
                { name := "C", changedToAt := some 2000 }] : List Event).length - 1)
              default).name, some hist) ∧
      hist.length = ([{ name := "A" }, { name := "B", changedToAt := some 1000 },
          { name := "C", changedToAt := some 2000 }] : List Event).length - 1 ∧
      ∀ q, q < ([{ name := "A" }, { name := "B", changedToAt := some 1000 },
          { name := "C", changedToAt := some 2000 }] : List Event).length - 1 →
        (hist.getD q {}).Name
          = (([{ name := "A" }, { name := "B", changedToAt := some 1000 },
              { name := "C", changedToAt := some 2000 }] : List Event).getD
                (([{ name := "A" }, { name := "B", changedToAt := some 1000 },
                  { name := "C", changedToAt := some 2000 }] : List Event).length - 2 - q)
                default).name :=
  ⟨by decide, history_reconstruction_C1.2 _ (by decide)⟩

/-- C2: when every event after the first carries a changed-to instant,
every reconstructed history entry except the logically-last one (the entry
for the first input event, which sits at the end of the history) has its
valid-until instant set, and it equals the changedToAt value of the input
event immediately following the one the entry is for; moreover the
changedToAt value of the first input event is ignored: changing it (or
removing it) never changes the output of buildHistory. -/
theorem history_validuntil_C2 :
    (∀ es : List Event, es ≠ [] →
      (∀ k, k < es.length → 1 ≤ k → (es.getD k default).changedToAt.isSome) →
      ∃ hist : List PastName,
        buildHistory (es.map Event.toJson)
          = some ((es.getD (es.length - 1) default).name, some hist) ∧
        ∀ q, q + 1 < hist.length →
          ∃ v : Int,
            (es.getD (es.length - 1 - q) default).changedToAt = some v ∧
            (hist.getD q {}).Until = some (msToTime v)) ∧
    (∀ (e : Event) (es' : List Event) (c' : Option Int),
      buildHistory (({ e with changedToAt := c' } :: es').map Event.toJson)
        = buildHistory ((e :: es').map Event.toJson)) := by
  constructor
  · intro es hne hall
    refine ⟨histSpec es, ?_, ?_⟩
    · rw [buildHistory_eq es hne, getLastD_eq_getD]
    · intro q hq
      rw [length_histSpec] at hq
      have hk := hall (es.length - 1 - q) (by omega) (by omega)
      obtain ⟨v, hv⟩ := Option.isSome_iff_exists.1 hk
      exact ⟨v, hv, by rw [getD_histSpec es q (by omega), hv]; rfl⟩
  · intro e es' c'
    cases es' with
    | nil =>
      rw [buildHistory_eq _ (by simp), buildHistory_eq _ (by simp)]
      simp [histSpec]
    | cons e2 es'' =>
      rw [buildHistory_eq _ (by simp), buildHistory_eq _ (by simp),
        List.getLast?_cons_cons, List.getLast?_cons_cons]
      refine congrArg some (Prod.ext rfl (congrArg some ?_))
      apply list_pn_ext
      · simp [length_histSpec]
      · intro q hq
        rw [length_histSpec] at hq
        simp only [List.length_cons] at hq
        rw [getD_histSpec _ q (by simp; omega), getD_histSpec _ q (by simp; omega)]
        apply pastName_ext
        · dsimp only [List.length_cons]
          rcases Nat.eq_zero_or_pos (es''.length + 1 + 1 - 2 - q) with h1 | h1
          · rw [h1, List.getD_cons_zero, List.getD_cons_zero]
          · obtain ⟨j, hj⟩ : ∃ j, es''.length + 1 + 1 - 2 - q = j + 1 :=
              ⟨_, (Nat.succ_pred_eq_of_pos h1).symm⟩
            rw [hj, List.getD_cons_succ, List.getD_cons_succ]
        · dsimp only [List.length_cons]
          obtain ⟨j, hj⟩ : ∃ j, es''.length + 1 + 1 - 1 - q = j + 1 :=
            ⟨es''.length - q, by omega⟩
          rw [hj, List.getD_cons_succ, List.getD_cons_succ]

/-- Concrete instance of history_validuntil_C2 at a three-event list. -/
theorem history_validuntil_C2_witness :
    ∃ hist : List PastName,
      buildHistory (([{ name := "A" }, { name := "B", changedToAt := some 1000 },
          { name := "C", changedToAt := some 2000 }] : List Event).map Event.toJson)
        = some ((([{ name := "A" }, { name := "B", changedToAt := some 1000 },
            { name := "C", changedToAt := some 2000 }] : List Event).getD
              (([{ name := "A" }, { name := "B", changedToAt := some 1000 },
                { name := "C", changedToAt := some 2000 }] : List Event).length - 1)
              default).name, some hist) ∧
      ∀ q, q + 1 < hist.length →
        ∃ v : Int,
          (([{ name := "A" }, { name := "B", changedToAt := some 1000 },
              { name := "C", changedToAt := some 2000 }] : List Event).getD
                (([{ name := "A" }, { name := "B", changedToAt := some 1000 },
                  { name := "C", changedToAt := some 2000 }] : List Event).length - 1 - q)
                default).changedToAt = some v ∧
          (hist.getD q {}).Until = some (msToTime v) :=
  history_validuntil_C2.1 _ (by decide) (by decide)

/-- A lowercase hexadecimal digit character, phrased on character codes. -/
def isHexLower (c : Char) : Prop :=
  (48 ≤ c.toNat ∧ c.toNat ≤ 57) ∨ (97 ≤ c.toNat ∧ c.toNat ≤ 102)

instance (c : Char) : Decidable (isHexLower c) := by
  unfold isHexLower; infer_instance

/-- The hexadecimal numeric value of a digit character: 0-9 for decimal
digits, 10-15 for the letter digits a-f. -/
def hexVal (c : Char) : Nat :=
  if c.toNat ≤ 57 then c.toNat - 48 else c.toNat - 87

/-- Evenness as the embedded isEven actually computes it on lowercase hex
digits: the hexadecimal numeric value of the digit is even. -/
def specEven (c : Char) : Bool :=
  hexVal c % 2 = 0

/-- The digit classifier exactly as the claim words it: a decimal digit is
even when its numeric value is even, a letter digit a-f is even when its
numeric value (10-15) is odd. -/
def isEvenClaim (c : Char) : Option Bool :=
  if 48 ≤ c.toNat ∧ c.toNat ≤ 57 then some ((c.toNat - 48) % 2 = 0)
  else if 97 ≤ c.toNat ∧ c.toNat ≤ 102 then some ((c.toNat - 87) % 2 = 1)
  else none

/-- The default model selector exactly as the claim words it, built on the
claim's digit classifier isEvenClaim. -/
def defaultModelClaim (uuid : String) : Option Model := do
  let e7 ← isEvenClaim (uuid.data.getD 7 ' ')
  let e23 ← isEvenClaim (uuid.data.getD 23 ' ')
  let e15 ← isEvenClaim (uuid.data.getD 15 ' ')
  let e31 ← isEvenClaim (uuid.data.getD 31 ' ')
  pure (if (e7 ≠ e23) ≠ (e15 ≠ e31) then Model.Alex else Model.Steve)

theorem strByte_eq (s : String) (i : Nat) (h : i < s.data.length) :
    strByte s i = some (s.data.getD i ' ').toNat := by
  simp [strByte, List.get?_eq_getElem?, List.getElem?_eq_getElem h,
    List.getD_eq_getElem?_getD]

theorem isEven_hex (c : Char) (h : isHexLower c) :
    isEven c.toNat = some (specEven c) := by
  rcases h with ⟨h1, h2⟩ | ⟨h1, h2⟩
  · unfold isEven specEven hexVal
    rw [if_pos ⟨h1, h2⟩, if_pos (by omega)]
    refine congrArg some (decide_eq_decide.mpr ?_)
    omega
  · unfold isEven specEven hexVal
    rw [if_neg (by omega), if_pos ⟨h1, h2⟩, if_neg (by omega)]
    refine congrArg some (decide_eq_decide.mpr ?_)
    omega

theorem getD_mem_data (s : String) (i : Nat) (h : i < s.data.length) :
    s.data.getD i ' ' ∈ s.data := by
  rw [List.getD_eq_getElem?_getD, List.getElem?_eq_getElem h, Option.getD_some]
  exact List.getElem_mem h

/-- C3 counterexample: on the 32-character lowercase hexadecimal identifier
0000000a000000000000000000000000 (letter a at inspected index 7, whose
numeric value 10 is even), the embedded defaultModel returns Steve while
the claim's classifier (letter digits even when their numeric value is
odd) forces Alex, so the claim's description of the classifier does not
match the code. -/
theorem defaultmodel_C3_counterexample :
    defaultModel "0000000a000000000000000000000000" = some Model.Steve ∧
    defaultModelClaim "0000000a000000000000000000000000" = some Model.Alex ∧
    defaultModel "0000000a000000000000000000000000"
      ≠ defaultModelClaim "0000000a000000000000000000000000" := by
  refine ⟨by decide, by decide, by decide⟩

/-- C3 amended: given a 32-character lowercase hexadecimal identifier, the
selector classifies a digit as even exactly when its hexadecimal numeric
value is even — for decimal digits an even value 0-9, for letter digits
a-f an even value among 10-15 (equivalently an odd character code) — then
computes X from the digits at indices 7 and 23 and Y from the digits at
indices 15 and 31, and returns Alex precisely when X differs from Y, Steve
otherwise; it is a pure deterministic function of its input. -/
theorem defaultmodel_C3_amended :
    (∀ c : Char, isHexLower c → isEven c.toNat = some (specEven c)) ∧
    (∀ uuid : String, uuid.data.length = 32 →
      (∀ c ∈ uuid.data, isHexLower c) →
      defaultModel uuid =
        some (if (specEven (uuid.data.getD 7 ' ') ≠ specEven (uuid.data.getD 23 ' '))
                ≠ (specEven (uuid.data.getD 15 ' ') ≠ specEven (uuid.data.getD 31 ' '))
              then Model.Alex else Model.Steve)) := by
  refine ⟨isEven_hex, ?_⟩
  intro uuid hlen hhex
  have h7 := strByte_eq uuid 7 (by omega)
  have h23 := strByte_eq uuid 23 (by omega)
  have h15 := strByte_eq uuid 15 (by omega)
  have h31 := strByte_eq uuid 31 (by omega)
  have e7 := isEven_hex _ (hhex _ (getD_mem_data uuid 7 (by omega)))
  have e23 := isEven_hex _ (hhex _ (getD_mem_data uuid 23 (by omega)))
  have e15 := isEven_hex _ (hhex _ (getD_mem_data uuid 15 (by omega)))
  have e31 := isEven_hex _ (hhex _ (getD_mem_data uuid 31 (by omega)))
  simp only [defaultModel, Option.bind_eq_bind, h7, Option.some_bind, e7, h23,
    e23, h15, e15, h31, e31]
  rfl

/-- Concrete instance of defaultmodel_C3_amended at the all-zero
identifier and the digit 0. -/
theorem defaultmodel_C3_amended_witness :
    isEven ('0').toNat = some (specEven '0') ∧
    defaultModel "00000000000000000000000000000000" =
      some (if (specEven ("00000000000000000000000000000000".data.getD 7 ' ')
              ≠ specEven ("00000000000000000000000000000000".data.getD 23 ' '))
              ≠ (specEven ("00000000000000000000000000000000".data.getD 15 ' ')
              ≠ specEven ("00000000000000000000000000000000".data.getD 31 ' '))
            then Model.Alex else Model.Steve) :=
  ⟨defaultmodel_C3_amended.1 '0' (by decide),
   defaultmodel_C3_amended.2 "00000000000000000000000000000000" (by decide)
     (by decide)⟩

/-- C10: the default model selector depends only on the characters at
indices 7, 15, 23 and 31: any two identifiers of length at least 32 that
agree at those four positions, with lowercase hexadecimal digits there,
receive the same body-model variant. -/
theorem defaultmodel_inputdep_C10 (s t : String)
    (hs : 32 ≤ s.data.length) (ht : 32 ≤ t.data.length)
    (h7 : s.data.getD 7 ' ' = t.data.getD 7 ' ')
    (h15 : s.data.getD 15 ' ' = t.data.getD 15 ' ')
    (h23 : s.data.getD 23 ' ' = t.data.getD 23 ' ')
    (h31 : s.data.getD 31 ' ' = t.data.getD 31 ' ')
    (_hx7 : isHexLower (s.data.getD 7 ' '))
    (_hx15 : isHexLower (s.data.getD 15 ' '))
    (_hx23 : isHexLower (s.data.getD 23 ' '))
    (_hx31 : isHexLower (s.data.getD 31 ' ')) :
    defaultModel s = defaultModel t := by
  have hs7 := strByte_eq s 7 (by omega)
  have hs23 := strByte_eq s 23 (by omega)
  have hs15 := strByte_eq s 15 (by omega)
  have hs31 := strByte_eq s 31 (by omega)
  have ht7 := strByte_eq t 7 (by omega)
  have ht23 := strByte_eq t 23 (by omega)
  have ht15 := strByte_eq t 15 (by omega)
  have ht31 := strByte_eq t 31 (by omega)
  simp only [defaultModel, Option.bind_eq_bind, hs7, hs23, hs15, hs31, ht7,
    ht23, ht15, ht31, Option.some_bind, h7, h15, h23, h31]

/-- Concrete instance of defaultmodel_inputdep_C10 at two identifiers that
differ everywhere except the four inspected positions. -/
theorem defaultmodel_inputdep_C10_witness :
    defaultModel "00000000000000000000000000000000"
      = defaultModel "11111110111111101111111011111110" :=
  defaultmodel_inputdep_C10 _ _ (by decide) (by decide) (by decide) (by decide)
    (by decide) (by decide) (by decide) (by decide) (by decide) (by decide)

/-- C5 counterexample: a transport failure with status 204 that also
carries the service error code TooManyRequestsException is mapped to
NoSuchProfile, not to the rate-limit error, because the status check runs
first; so the claim's "regardless of the HTTP status code" fails at status
204. -/
theorem transformerror_C5_counterexample :
    transformError (.failedRequest 204 "TooManyRequestsException")
      = Err.noSuchProfile ∧
    transformError (.failedRequest 204 "TooManyRequestsException")
      ≠ Err.tooManyRequests := by
  exact ⟨rfl, by decide⟩

/-- C5 amended: a transport failure with the no-content status 204 maps to
NoSuchProfile whatever its error code; a transport failure carrying the
code TooManyRequestsException maps to the rate-limit error for every
status code other than 204 (the no-content reinterpretation takes
precedence); and every other error is returned unchanged. -/
theorem transformerror_C5_amended :
    (∀ code : String,
      transformError (.failedRequest 204 code) = Err.noSuchProfile) ∧
    (∀ (status : Nat) (code : String), status ≠ 204 →
      code = "TooManyRequestsException" →
      transformError (.failedRequest status code) = Err.tooManyRequests) ∧
    (∀ (status : Nat) (code : String), status ≠ 204 →
      code ≠ "TooManyRequestsException" →
      transformError (.failedRequest status code) = .failedRequest status code) ∧
    (∀ e : Err, (∀ status code, e ≠ .failedRequest status code) →
      transformError e = e) := by
  refine ⟨?_, ?_, ?_, ?_⟩
  · intro code; simp [transformError]
  · intro status code h1 h2; simp [transformError, h1, h2]
  · intro status code h1 h2; simp [transformError, h1, h2]
  · intro e he
    cases e <;> first | rfl | exact absurd rfl (he _ _)

/-- Concrete instances of transformerror_C5_amended. -/
theorem transformerror_C5_amended_witness :
    transformError (.failedRequest 204 "x") = Err.noSuchProfile ∧
    transformError (.failedRequest 429 "TooManyRequestsException")
      = Err.tooManyRequests ∧
    transformError (.failedRequest 500 "oops") = .failedRequest 500 "oops" ∧
    transformError Err.parseFailure = Err.parseFailure :=
  ⟨transformerror_C5_amended.1 "x",
   transformerror_C5_amended.2.1 429 _ (by decide) rfl,
   transformerror_C5_amended.2.2.1 500 "oops" (by decide) (by decide),
   transformerror_C5_amended.2.2.2 Err.parseFailure
     (by intro s c h; cases h)⟩

/-- C6: a profile document whose demo flag is present and true makes
buildProfile fail with the supplied demo error (the no-such-profile error
at every call site) regardless of all other fields; consequently a single
load of such a document yields no profile and the no-such-profile error,
and the batch loop of LoadMany skips the document entirely. -/
theorem demo_filter_C6 :
    (∀ (m : List (String × Json)) (demoErr : Err),
      Json.lookup m "demo" = some (Json.bool true) →
      buildProfile m demoErr = some (.error demoErr)) ∧
    (∀ m : List (String × Json),
      Json.lookup m "demo" = some (Json.bool true) →
      loadByName (.ok (Json.obj m)) = (none, some Err.noSuchProfile)) ∧
    (∀ (m : List (String × Json)) (rest : List Json) (acc : List Profile),
      Json.lookup m "demo" = some (Json.bool true) →
      loadManyLoop (Json.obj m :: rest) acc = loadManyLoop rest acc) := by
  have h1 : ∀ (m : List (String × Json)) (demoErr : Err),
      Json.lookup m "demo" = some (Json.bool true) →
      buildProfile m demoErr = some (.error demoErr) := by
    intro m demoErr h
    simp [buildProfile, h, Json.asBool]
  refine ⟨h1, ?_, ?_⟩
  · intro m h
    simp [loadByName, Json.asObj, h1 m _ h]
  · intro m rest acc h
    simp [loadManyLoop, Json.asObj, h1 m _ h]

/-- Concrete instance of demo_filter_C6 at a demo document. -/
theorem demo_filter_C6_witness :
    buildProfile [("demo", Json.bool true), ("id", Json.str "x")]
        Err.noSuchProfile = some (.error Err.noSuchProfile) ∧
    loadByName (.ok (Json.obj [("demo", Json.bool true), ("id", Json.str "x")]))
      = (none, some Err.noSuchProfile) ∧
    loadManyLoop [Json.obj [("demo", Json.bool true), ("id", Json.str "x")]] []
      = loadManyLoop [] [] :=
  ⟨demo_filter_C6.1 _ Err.noSuchProfile rfl,
   demo_filter_C6.2.1 _ rfl,
   demo_filter_C6.2.2 _ [] [] rfl⟩

/-- C9 counterexample: buildProfile performs no emptiness validation, so a
document whose id and name fields are empty strings yields a successfully
constructed Profile with an empty identifier and an empty current name. -/
theorem profile_nonempty_C9_counterexample :
    buildProfile [("id", Json.str ""), ("name", Json.str "")] Err.noSuchProfile
      = some (.ok { ID := "", Name := "" }) ∧
    ({ ID := "", Name := "" } : Profile).ID = "" ∧
    ({ ID := "", Name := "" } : Profile).Name = "" :=
  ⟨rfl, rfl, rfl⟩

theorem buildProfile_fields (m : List (String × Json)) (demoErr : Err)
    (p : Profile) (hp : buildProfile m demoErr = some (.ok p)) :
    Json.lookup m "id" = some (Json.str p.ID) ∧
    Json.lookup m "name" = some (Json.str p.Name) := by
  have hrest : buildProfile.buildProfileRest m = some (.ok p) := by
    unfold buildProfile at hp
    split at hp
    · split at hp
      · cases hp
      · split at hp
        · simp at hp
        · exact hp
    · exact hp
  unfold buildProfile.buildProfileRest at hrest
  rcases hid : (Json.lookup m "id").bind Json.asString with _ | idv <;>
    rw [hid] at hrest
  · cases hrest
  rcases hnm : (Json.lookup m "name").bind Json.asString with _ | nmv <;>
    rw [hnm] at hrest
  · cases hrest
  have hbase : p.ID = idv ∧ p.Name = nmv := by
    dsimp only at hrest
    split at hrest
    · split at hrest
      · cases hrest
      · split at hrest
        · obtain rfl :
              ({ ID := idv, Name := nmv, NameHistory := some [] } : Profile)
                = p := by simpa using hrest
          exact ⟨rfl, rfl⟩
        · obtain rfl : ({ ID := idv, Name := nmv } : Profile) = p := by
            simpa using hrest
          exact ⟨rfl, rfl⟩
    · obtain rfl : ({ ID := idv, Name := nmv } : Profile) = p := by
        simpa using hrest
      exact ⟨rfl, rfl⟩
  obtain ⟨hpid, hpnm⟩ := hbase
  constructor
  · rcases hid0 : Json.lookup m "id" with _ | v <;> rw [hid0] at hid
    · cases hid
    · rcases v with _ | sv | _ | _ | _ | _ <;> simp [Json.asString] at hid
      rw [hpid, ← hid]
  · rcases hnm0 : Json.lookup m "name" with _ | w <;> rw [hnm0] at hnm
    · cases hnm
    · rcases w with _ | sw | _ | _ | _ | _ <;> simp [Json.asString] at hnm
      rw [hpnm, ← hnm]

/-- C9 amended: every Profile successfully constructed by buildProfile
carries exactly the id and name strings of its input document, so its
identifier and current name are non-empty whenever those document fields
are non-empty; a Profile constructed by LoadWithNameHistory carries the
queried identifier, which the guard ensures is non-empty, and the current
name reconstructed by buildHistory.  The code itself never checks the
fields for emptiness. -/
theorem profile_nonempty_C9_amended :
    (∀ (m : List (String × Json)) (demoErr : Err) (p : Profile),
      buildProfile m demoErr = some (.ok p) →
      Json.lookup m "id" = some (Json.str p.ID) ∧
      Json.lookup m "name" = some (Json.str p.Name)) ∧
    (∀ (m : List (String × Json)) (demoErr : Err) (p : Profile),
      buildProfile m demoErr = some (.ok p) →
      Json.lookup m "id" ≠ some (Json.str "") →
      Json.lookup m "name" ≠ some (Json.str "") →
      p.ID ≠ "" ∧ p.Name ≠ "") ∧
    (∀ (id : String) (f : Except Err Json) (p : Profile),
      (LoadWithNameHistory id f).1 = some p →
      p.ID = id ∧ p.ID ≠ "" ∧
      ∃ (arr : List Json) (nh : String × Option (List PastName)),
        f = .ok (Json.arr arr) ∧ buildHistory arr = some nh ∧ p.Name = nh.1) := by
  refine ⟨buildProfile_fields, ?_, ?_⟩
  · intro m demoErr p hp hid hnm
    obtain ⟨h2, h3⟩ := buildProfile_fields m demoErr p hp
    constructor
    · intro h0; rw [h0] at h2; exact hid h2
    · intro h0; rw [h0] at h3; exact hnm h3
  · intro id f p hp
    unfold LoadWithNameHistory at hp
    by_cases hid : id = ""
    · rw [if_pos hid] at hp; cases hp
    · rw [if_neg hid] at hp
      rcases f with e | j
      · simp at hp
      · dsimp only at hp
        rcases hj : j.asArr with _ | arr <;> rw [hj] at hp
        · cases hp
        · dsimp only at hp
          rcases hb : buildHistory arr with _ | nh <;> rw [hb] at hp
          · cases hp
          · obtain rfl :
                ({ ID := id, Name := nh.1, NameHistory := nh.2 } : Profile)
                  = p := by simpa using hp
            refine ⟨rfl, hid, arr, nh, ?_, hb, rfl⟩
            cases j <;> simp [Json.asArr] at hj
            rw [hj]

/-- Concrete instance of profile_nonempty_C9_amended. -/
theorem profile_nonempty_C9_amended_witness :
    Json.lookup [("id", Json.str "abc"), ("name", Json.str "Notch")] "id"
        = some (Json.str ({ ID := "abc", Name := "Notch" } : Profile).ID) ∧
    Json.lookup [("id", Json.str "abc"), ("name", Json.str "Notch")] "name"
        = some (Json.str ({ ID := "abc", Name := "Notch" } : Profile).Name) :=
  profile_nonempty_C9_amended.1
    [("id", Json.str "abc"), ("name", Json.str "Notch")] Err.noSuchProfile
    { ID := "abc", Name := "Notch" } rfl

/-- C8 counterexample: a batch of 101 usernames that are all empty fails
with the size error before anything else, so the claim's unconditional
"all-empty input returns an empty result with no error" is false once more
than LoadManyMaxSize usernames are supplied. -/
theorem loadmany_C8_counterexample :
    LoadMany (List.replicate 101 "") (fun _ => .ok (Json.arr []))
      = (none, some (Err.maxSizeExceeded 101)) ∧
    (LoadMany (List.replicate 101 "") (fun _ => .ok (Json.arr []))).2 ≠ none := by
  exact ⟨rfl, by decide⟩

/-- C8 amended: LoadMany with more than LoadManyMaxSize = 100 usernames
fails with the size error carrying the requested count and issues no
transport request; when a request is issued its payload is the input with
the empty usernames dropped; and when at most 100 usernames are supplied
and all of them are empty (or none are supplied), no transport call is
issued and the result is the nil (empty) slice with no error.  A result
independent of the exchange collaborator witnesses that no call is
issued. -/
theorem loadmany_C8_amended :
    (∀ (username : List String) (exchange : List String → Except Err Json),
      username.length > LoadManyMaxSize →
      LoadMany username exchange
          = (none, some (.maxSizeExceeded username.length)) ∧
        loadManyRequest username = none) ∧
    (∀ (username : List String) (payload : List String),
      loadManyRequest username = some payload →
      payload = username.filter (fun u => u ≠ "")) ∧
    (∀ (username : List String) (exchange : List String → Except Err Json),
      username.length ≤ LoadManyMaxSize → (∀ u ∈ username, u = "") →
      LoadMany username exchange = (none, none) ∧
        loadManyRequest username = none) ∧
    (∀ (username : List String) (ex1 ex2 : List String → Except Err Json),
      loadManyRequest username = none →
      LoadMany username ex1 = LoadMany username ex2) := by
  refine ⟨?_, ?_, ?_, ?_⟩
  · intro u ex h
    constructor
    · simp only [LoadMany, if_pos h]
    · simp only [loadManyRequest, if_pos h]
  · intro u payload h
    simp only [loadManyRequest] at h
    split at h
    · cases h
    · split at h
      · cases h
      · exact (Option.some_inj.1 h).symm
  · intro u ex h hall
    have hf : u.filter (fun x => x ≠ "") = [] := by
      rw [List.filter_eq_nil_iff]
      intro a ha
      simp [hall a ha]
    constructor
    · simp only [LoadMany, if_neg (Nat.not_lt.2 h), hf]
      simp
    · simp only [loadManyRequest, if_neg (Nat.not_lt.2 h), hf]
      simp
  · intro u ex1 ex2 h
    simp only [loadManyRequest] at h
    split at h
    · rename_i hgt
      simp only [LoadMany, if_pos hgt]
    · split at h
      · rename_i hgt hzero
        simp only [LoadMany, if_neg hgt, if_pos hzero]
      · cases h

/-- Concrete instances of loadmany_C8_amended. -/
theorem loadmany_C8_amended_witness :
    (LoadMany (List.replicate 101 "x") (fun _ => .ok (Json.arr []))
        = (none, some (.maxSizeExceeded 101)) ∧
      loadManyRequest (List.replicate 101 "x") = none) ∧
    (["a", "b"] : List String) = ["a", "", "b", ""].filter (fun u => u ≠ "") ∧
    (LoadMany ["", "", ""] (fun _ => .ok (Json.arr [])) = (none, none) ∧
      loadManyRequest ["", "", ""] = none) ∧
    LoadMany [""] (fun _ => .ok (Json.arr []))
      = LoadMany [""] (fun _ => .error Err.parseFailure) :=
  ⟨loadmany_C8_amended.1 (List.replicate 101 "x") _ (by decide),
   loadmany_C8_amended.2.1 ["a", "", "b", ""] ["a", "b"] (by decide),
   loadmany_C8_amended.2.2.1 ["", "", ""] _ (by decide) (by decide),
   loadmany_C8_amended.2.2.2 [""] _ _ (by decide)⟩

theorem loadByName_atomic (f : Except Err Json) :
    (loadByName f).2 ≠ none → (loadByName f).1 = none := by
  unfold loadByName
  repeat' split
  all_goals intro h
  all_goals first | rfl | exact absurd rfl h

theorem LoadWithNameHistory_atomic (id : String) (f : Except Err Json) :
    (LoadWithNameHistory id f).2 ≠ none → (LoadWithNameHistory id f).1 = none := by
  unfold LoadWithNameHistory
  repeat' split
  all_goals intro h
  all_goals first | rfl | exact absurd rfl h

theorem LoadWithProperties_atomic (id : String)
    (decode : String → Except Err Json) (f : Except Err Json) :
    (LoadWithProperties id decode f).2 ≠ none →
    (LoadWithProperties id decode f).1 = none := by
  unfold LoadWithProperties
  repeat' split
  all_goals intro h
  all_goals first | rfl | exact absurd rfl h

theorem LoadMany_atomic (u : List String)
    (ex : List String → Except Err Json) :
    (LoadMany u ex).2 ≠ none → (LoadMany u ex).1 = none := by
  unfold LoadMany
  dsimp only
  repeat' split
  all_goals intro h
  all_goals first | rfl | exact absurd rfl h

/-- C7: every load operation is atomic on failure — whenever the returned
error is non-nil the returned profile (or profile slice) is nil, for Load,
LoadAtTime, LoadByID, LoadWithNameHistory, LoadWithProperties and
LoadMany; the batch loop of LoadMany silently skips entries whose
document is flagged demo (which resolve to the no-such-profile error)
while a malformed batch entry fails the whole loop, nil-ing the entire
batch result. -/
theorem atomic_failure_C7 :
    (∀ (username : String) (f : Except Err Json),
      (Load username f).2 ≠ none → (Load username f).1 = none) ∧
    (∀ (username : String) (tm : Int) (f : Except Err Json),
      (LoadAtTime username tm f).2 ≠ none → (LoadAtTime username tm f).1 = none) ∧
    (∀ (id : String) (f : Except Err Json),
      (LoadByID id f).2 ≠ none → (LoadByID id f).1 = none) ∧
    (∀ (id : String) (f : Except Err Json),
      (LoadWithNameHistory id f).2 ≠ none →
      (LoadWithNameHistory id f).1 = none) ∧
    (∀ (id : String) (decode : String → Except Err Json) (f : Except Err Json),
      (LoadWithProperties id decode f).2 ≠ none →
      (LoadWithProperties id decode f).1 = none) ∧
    (∀ (u : List String) (ex : List String → Except Err Json),
      (LoadMany u ex).2 ≠ none → (LoadMany u ex).1 = none) ∧
    (∀ (m : List (String × Json)) (rest : List Json) (acc : List Profile),
      Json.lookup m "demo" = some (Json.bool true) →
      loadManyLoop (Json.obj m :: rest) acc = loadManyLoop rest acc) ∧
    (∀ (v : Json) (rest : List Json) (acc : List Profile),
      v.asObj = none → loadManyLoop (v :: rest) acc = none) := by
  refine ⟨?_, ?_, ?_, LoadWithNameHistory_atomic, LoadWithProperties_atomic,
    LoadMany_atomic, ?_, ?_⟩
  · intro u f
    unfold Load
    by_cases hu : u = ""
    · rw [if_pos hu]; intro _; rfl
    · rw [if_neg hu]; exact loadByName_atomic f
  · intro u tm f
    unfold LoadAtTime
    by_cases hu : u = ""
    · rw [if_pos hu]; intro _; rfl
    · rw [if_neg hu]; exact loadByName_atomic f
  · intro id f
    unfold LoadByID
    exact LoadWithNameHistory_atomic id f
  · intro m rest acc h
    have hb : buildProfile m Err.noSuchProfile = some (.error Err.noSuchProfile) := by
      simp [buildProfile, h, Json.asBool]
    simp [loadManyLoop, Json.asObj, hb]
  · intro v rest acc h
    simp [loadManyLoop, h]

/-- Concrete instance of atomic_failure_C7: the empty username fails the
load with a nil profile. -/
theorem atomic_failure_C7_witness :
    (Load "" (.ok Json.null)).2 ≠ none ∧ (Load "" (.ok Json.null)).1 = none :=
  ⟨by decide, atomic_failure_C7.1 "" (.ok Json.null) (by decide)⟩

theorem capeStep_model (ts : List (String × Json)) (props r : Properties)
    (h : capeStep ts props = some r) : r.Model = props.Model := by
  unfold capeStep at h
  split at h
  · rename_i c hc
    rcases hco : c.asObj with _ | cape <;> rw [hco] at h
    · cases h
    · simp only [Option.bind_eq_bind, Option.some_bind] at h
      rcases hurl : (Json.lookup cape "url").bind Json.asString with _ | url <;>
        rw [hurl] at h
      · cases h
      · simp only [Option.some_bind] at h
        cases Option.some_inj.1 h
        rfl
  · cases Option.some_inj.1 h
    rfl

theorem skinStep_model_isSome (ts jm : List (String × Json))
    (props r : Properties) (h : skinStep ts jm props = some r) :
    r.Model.isSome := by
  unfold skinStep at h
  split at h
  · rename_i s hs
    rcases hso : s.asObj with _ | skin <;> rw [hso] at h
    · cases h
    · simp only [Option.bind_eq_bind, Option.some_bind] at h
      rcases hurl : (Json.lookup skin "url").bind Json.asString with _ | url <;>
        rw [hurl] at h
      · cases h
      · simp only [Option.bind_eq_bind, Option.some_bind] at h
        split at h
        · rename_i s2 hs2
          rcases hso2 : s2.asObj with _ | skinMeta <;> rw [hso2] at h
          · cases h
          · simp only [Option.bind_eq_bind, Option.some_bind] at h
            split at h
            · rename_i mv hmv
              rcases hms : mv.asString with _ | ms <;> rw [hms] at h
              · cases h
              · simp only [Option.bind_eq_bind, Option.some_bind] at h
                split at h <;> cases Option.some_inj.1 h <;> rfl
            · cases Option.some_inj.1 h; rfl
        · cases Option.some_inj.1 h; rfl
  · rcases hpid : (Json.lookup jm "profileId").bind Json.asString with _ | pid <;>
      rw [hpid] at h
    · cases h
    · simp only [Option.bind_eq_bind, Option.some_bind] at h
      rcases hdm : defaultModel pid with _ | mdl <;> rw [hdm] at h
      · cases h
      · simp only [Option.bind_eq_bind, Option.some_bind] at h
        cases Option.some_inj.1 h; rfl

theorem skinStep_noskin (ts jm : List (String × Json)) (pid : String)
    (props : Properties) (h1 : Json.lookup ts "SKIN" = none)
    (h2 : Json.lookup jm "profileId" = some (Json.str pid)) :
    skinStep ts jm props
      = (defaultModel pid).map fun mdl => { props with Model := some mdl } := by
  unfold skinStep
  rw [h1, h2]
  simp only [Json.asString, Option.bind_eq_bind, Option.some_bind]
  rcases hdm : defaultModel pid with _ | mdl <;> rfl

/-- A SKIN object without an explicit slim model override: either no
metadata entry, or a metadata object without a model entry or whose model
value is a string other than slim. -/
def metaNoSlim (skin : List (String × Json)) : Prop :=
  Json.lookup skin "metadata" = none ∨
  ∃ sm, Json.lookup skin "metadata" = some (Json.obj sm) ∧
    (Json.lookup sm "model" = none ∨
     ∃ s, Json.lookup sm "model" = some (Json.str s) ∧ s ≠ "slim")

theorem skinStep_steve (ts jm skin : List (String × Json)) (url : String)
    (props : Properties)
    (h1 : Json.lookup ts "SKIN" = some (Json.obj skin))
    (h2 : Json.lookup skin "url" = some (Json.str url))
    (h3 : metaNoSlim skin) :
    skinStep ts jm props
      = some { props with SkinURL := some url, Model := some Model.Steve } := by
  unfold skinStep
  rw [h1]
  simp only [Json.asObj, Option.bind_eq_bind, Option.some_bind, h2, Json.asString]
  rcases h3 with h3 | ⟨sm, h3, h4⟩
  · rw [h3]; rfl
  · rw [h3]
    simp only [Json.asObj, Option.bind_eq_bind, Option.some_bind]
    rcases h4 with h4 | ⟨str, h4, h5⟩
    · rw [h4]; rfl
    · rw [h4]
      simp only [Json.asString, Option.bind_eq_bind, Option.some_bind, if_neg h5]
      rfl

theorem skinStep_alex (ts jm skin sm : List (String × Json)) (url : String)
    (props : Properties)
    (h1 : Json.lookup ts "SKIN" = some (Json.obj skin))
    (h2 : Json.lookup skin "url" = some (Json.str url))
    (h3 : Json.lookup skin "metadata" = some (Json.obj sm))
    (h4 : Json.lookup sm "model" = some (Json.str "slim")) :
    skinStep ts jm props
      = some { props with SkinURL := some url, Model := some Model.Alex } := by
  unfold skinStep
  rw [h1]
  simp only [Json.asObj, Option.bind_eq_bind, Option.some_bind, h2,
    Json.asString, h3, h4]
  rfl

theorem populateTexturesDoc_obj (jm ts : List (String × Json))
    (props : Properties)
    (htex : Json.lookup jm "textures" = some (Json.obj ts)) :
    populateTexturesDoc (Json.obj jm) props
      = (skinStep ts jm props).bind (capeStep ts) := by
  unfold populateTexturesDoc
  simp only [Json.asObj, Option.bind_eq_bind, Option.some_bind, htex]

/-- C4: for every decoded textures document, the body model of the
resulting Properties is always resolved: with no SKIN entry it equals the
outcome of the default model selector on the embedded profile identifier
(not a fixed Steve default); with a SKIN entry but no metadata model value
equal to slim it is Steve; with metadata model slim it is Alex; and every
successful decode leaves the model set. -/
theorem appearance_model_C4 :
    (∀ (jm ts : List (String × Json)) (pid : String) (props r : Properties),
      Json.lookup jm "textures" = some (Json.obj ts) →
      Json.lookup ts "SKIN" = none →
      Json.lookup jm "profileId" = some (Json.str pid) →
      populateTexturesDoc (Json.obj jm) props = some r →
      r.Model = defaultModel pid) ∧
    (∀ (jm ts skin : List (String × Json)) (url : String) (props r : Properties),
      Json.lookup jm "textures" = some (Json.obj ts) →
      Json.lookup ts "SKIN" = some (Json.obj skin) →
      Json.lookup skin "url" = some (Json.str url) →
      metaNoSlim skin →
      populateTexturesDoc (Json.obj jm) props = some r →
      r.Model = some Model.Steve) ∧
    (∀ (jm ts skin sm : List (String × Json)) (url : String)
        (props r : Properties),
      Json.lookup jm "textures" = some (Json.obj ts) →
      Json.lookup ts "SKIN" = some (Json.obj skin) →
      Json.lookup skin "url" = some (Json.str url) →
      Json.lookup skin "metadata" = some (Json.obj sm) →
      Json.lookup sm "model" = some (Json.str "slim") →
      populateTexturesDoc (Json.obj jm) props = some r →
      r.Model = some Model.Alex) ∧
    (∀ (j : Json) (props r : Properties),
      populateTexturesDoc j props = some r → r.Model.isSome) := by
  refine ⟨?_, ?_, ?_, ?_⟩
  · intro jm ts pid props r htex hskin hpid h
    rw [populateTexturesDoc_obj jm ts props htex,
      skinStep_noskin ts jm pid props hskin hpid] at h
    rcases hdm : defaultModel pid with _ | mdl <;> rw [hdm] at h
    · cases h
    · simp only [Option.map_some', Option.some_bind] at h
      have h2 := capeStep_model ts _ r h
      exact h2.trans rfl
  · intro jm ts skin url props r htex hskin hurl hmeta h
    rw [populateTexturesDoc_obj jm ts props htex,
      skinStep_steve ts jm skin url props hskin hurl hmeta,
      Option.some_bind] at h
    rw [capeStep_model ts _ r h]
  · intro jm ts skin sm url props r htex hskin hurl hmeta hslim h
    rw [populateTexturesDoc_obj jm ts props htex,
      skinStep_alex ts jm skin sm url props hskin hurl hmeta hslim,
      Option.some_bind] at h
    rw [capeStep_model ts _ r h]
  · intro j props r h
    unfold populateTexturesDoc at h
    rcases hobj : j.asObj with _ | jm <;> rw [hobj] at h
    · cases h
    · simp only [Option.bind_eq_bind, Option.some_bind] at h
      rcases hts : (Json.lookup jm "textures").bind Json.asObj with _ | ts <;>
        rw [hts] at h
      · cases h
      · simp only [Option.some_bind] at h
        rcases hsk : skinStep ts jm props with _ | props1 <;> rw [hsk] at h
        · cases h
        · simp only [Option.some_bind] at h
          rw [capeStep_model ts props1 r h]
          exact skinStep_model_isSome ts jm props props1 hsk

/-- Concrete instance of appearance_model_C4: a SKIN entry without
metadata resolves to Steve. -/
theorem appearance_model_C4_witness :
    populateTexturesDoc
        (Json.obj [("textures",
          Json.obj [("SKIN", Json.obj [("url", Json.str "u")])])]) {}
      = some { SkinURL := some "u", Model := some Model.Steve } ∧
    ({ SkinURL := some "u", Model := some Model.Steve } : Properties).Model
      = some Model.Steve :=
  ⟨rfl,
   appearance_model_C4.2.1
     [("textures", Json.obj [("SKIN", Json.obj [("url", Json.str "u")])])]
     [("SKIN", Json.obj [("url", Json.str "u")])]
     [("url", Json.str "u")] "u" {}
     { SkinURL := some "u", Model := some Model.Steve }
     rfl rfl rfl (Or.inl rfl) rfl⟩
